import Mathlib

/-!
Verification of the scheduling, usefulness-scoring and fuzzy-matching core of
the KSRS spaced-repetition application.

The TypeScript sources are shallowly embedded: JS numbers are modelled as
exact rationals (`ℚ`), `Math.round` as `⌊x + 1/2⌋` (round half towards +∞,
which is JS semantics), strings as `List Char`, and optional values as
`Option`.
-/

namespace KSRS

/-- JS `Math.round`: round half up (towards +∞). -/
def jsRound (q : ℚ) : ℤ := ⌊q + 1/2⌋

/-- The scheduling state returned by `calculateSM2`
(`src/app/api/review/[deckId]/route.ts`). -/
structure SM2State where
  easeFactor : ℚ
  intervalDays : ℚ
  repetitions : ℤ
deriving DecidableEq

/-- Embedding of `calculateSM2` from `src/app/api/review/[deckId]/route.ts`
(lines 54–106).  The rating is a JS number; the TS type restricts it to
`1 | 2 | 3 | 4`, and the if-chain leaves the state unchanged for any other
value (no `else` branch in the source). -/
def calculateSM2 (rating : ℕ) (easeFactor intervalDays : ℚ) (repetitions : ℤ) :
    SM2State :=
  if rating = 1 then
    -- Again - Reset card
    { easeFactor := max 1.3 (easeFactor - 0.2)
      intervalDays := 0
      repetitions := 0 }
  else if rating = 2 then
    -- Hard - Slight decrease in ease, modest interval increase
    { easeFactor := max 1.3 (easeFactor - 0.15)
      intervalDays := max 1 ((jsRound (intervalDays * 1.2) : ℚ))
      repetitions := repetitions + 1 }
  else if rating = 3 then
    -- Good - Standard SM-2
    let newRepetitions := repetitions + 1
    { easeFactor := easeFactor
      intervalDays :=
        if newRepetitions = 1 then 1
        else if newRepetitions = 2 then 6
        else (jsRound (intervalDays * easeFactor) : ℚ)
      repetitions := newRepetitions }
  else if rating = 4 then
    -- Easy - Increase ease factor, longer interval
    let newRepetitions := repetitions + 1
    { easeFactor := easeFactor + 0.15
      intervalDays :=
        if newRepetitions = 1 then 4
        else if newRepetitions = 2 then 10
        else (jsRound (intervalDays * easeFactor * 1.3) : ℚ)
      repetitions := newRepetitions }
  else
    { easeFactor := easeFactor, intervalDays := intervalDays
      repetitions := repetitions }

/-- Embedding of the due-date computation of the `POST` handler
(`src/app/api/review/[deckId]/route.ts`, lines 363–371), as the delay in
minutes added to `now` (days idealized as 1440 minutes; the source adds
calendar days via `Date.setDate`): a zero interval means "due in 1 minute",
otherwise the interval in days is added. -/
def dueDeltaMinutes (intervalDays : ℚ) : ℚ :=
  if intervalDays = 0 then 1 else 1440 * intervalDays

/- Field-level unfolding equations for `calculateSM2` at each literal rating;
all hold by definitional reduction of the if-chain. -/

lemma sm2_one_ease (e i : ℚ) (r : ℤ) :
    (calculateSM2 1 e i r).easeFactor = max 1.3 (e - 0.2) := rfl

lemma sm2_one_interval (e i : ℚ) (r : ℤ) :
    (calculateSM2 1 e i r).intervalDays = 0 := rfl

lemma sm2_one_reps (e i : ℚ) (r : ℤ) :
    (calculateSM2 1 e i r).repetitions = 0 := rfl

lemma sm2_two_ease (e i : ℚ) (r : ℤ) :
    (calculateSM2 2 e i r).easeFactor = max 1.3 (e - 0.15) := rfl

lemma sm2_two_interval (e i : ℚ) (r : ℤ) :
    (calculateSM2 2 e i r).intervalDays = max 1 ((jsRound (i * 1.2) : ℚ)) := rfl

lemma sm2_two_reps (e i : ℚ) (r : ℤ) :
    (calculateSM2 2 e i r).repetitions = r + 1 := rfl

lemma sm2_three_ease (e i : ℚ) (r : ℤ) :
    (calculateSM2 3 e i r).easeFactor = e := rfl

lemma sm2_three_interval (e i : ℚ) (r : ℤ) :
    (calculateSM2 3 e i r).intervalDays =
      (if r + 1 = 1 then 1 else if r + 1 = 2 then 6
       else (jsRound (i * e) : ℚ)) := rfl

lemma sm2_three_reps (e i : ℚ) (r : ℤ) :
    (calculateSM2 3 e i r).repetitions = r + 1 := rfl

lemma sm2_four_ease (e i : ℚ) (r : ℤ) :
    (calculateSM2 4 e i r).easeFactor = e + 0.15 := rfl

lemma sm2_four_interval (e i : ℚ) (r : ℤ) :
    (calculateSM2 4 e i r).intervalDays =
      (if r + 1 = 1 then 4 else if r + 1 = 2 then 10
       else (jsRound (i * e * 1.3) : ℚ)) := rfl

lemma sm2_four_reps (e i : ℚ) (r : ℤ) :
    (calculateSM2 4 e i r).repetitions = r + 1 := rfl

/-- C1 counterexample: on rating Again (1) the scheduler stores interval `0`,
not `1/1440` of a day, as shown at ease 2.5, interval 10, repetitions 3. -/
theorem sm2_again_interval_not_one_minute :
    (calculateSM2 1 2.5 10 3).intervalDays ≠ 1/1440 := by
  norm_num [calculateSM2]

/-- C1 (amended): for every prior state, rating Again (1) returns repetitions
0 and intervalDays 0; the review handler then interprets the zero interval as
"due in 1 minute" (the 1/1440-day equivalent). -/
theorem sm2_again_resets (e i : ℚ) (r : ℤ) :
    (calculateSM2 1 e i r).repetitions = 0 ∧
    (calculateSM2 1 e i r).intervalDays = 0 ∧
    dueDeltaMinutes (calculateSM2 1 e i r).intervalDays = 1 := by
  norm_num [calculateSM2, dueDeltaMinutes]

/-- C2 counterexample: at repetitions 1 and default ease 2.5 (interval 1 after
the first Good), Hard returns interval 1, not 7.2, and Easy returns 10, not
7.8; moreover Hard at repetitions 0 depends on the stored interval (6 at
interval 5), so "interval 1 for Hard" needs the fresh-card interval 0. -/
theorem sm2_second_review_counterexample :
    (calculateSM2 2 2.5 1 1).intervalDays ≠ 7.2 ∧
    (calculateSM2 4 2.5 1 1).intervalDays ≠ 7.8 ∧
    (calculateSM2 2 2.5 5 0).intervalDays ≠ 1 := by
  norm_num [calculateSM2, jsRound]

/-- C2 (amended): on a fresh card (repetitions 0, interval 0) Good and Hard
yield interval 1 and Easy yields 4 (Good and Easy for any stored interval);
at repetitions 1 with default ease 2.5, Good yields 6 and Easy yields 10 for
any stored interval, while Hard yields `max(1, round(interval × 1.2))`,
which is 1 at the stored interval 1 left by a first Good. -/
theorem sm2_first_second_review_intervals :
    (∀ e i : ℚ, (calculateSM2 3 e i 0).intervalDays = 1 ∧
        (calculateSM2 4 e i 0).intervalDays = 4 ∧
        (calculateSM2 2 e 0 0).intervalDays = 1) ∧
    (∀ i : ℚ, (calculateSM2 3 2.5 i 1).intervalDays = 6 ∧
        (calculateSM2 4 2.5 i 1).intervalDays = 10) ∧
    (calculateSM2 2 2.5 1 1).intervalDays = 1 := by
  refine ⟨fun e i => ⟨?_, ?_, ?_⟩, fun i => ⟨?_, ?_⟩, ?_⟩ <;>
    norm_num [calculateSM2, jsRound]

/-- C3 counterexample: on an established card (repetitions 2, interval 15,
ease 2.5) the scheduler rounds the products: Good returns 38, not 37.5, and
Easy returns 49, not 48.75. -/
theorem sm2_established_counterexample :
    (calculateSM2 3 2.5 15 2).intervalDays ≠ 37.5 ∧
    (calculateSM2 4 2.5 15 2).intervalDays ≠ 48.75 := by
  norm_num [calculateSM2, jsRound]

/-- C3 (amended): for an established card with repetitions 2, interval 15 and
ease 2.5, Good returns `round(15 × 2.5) = 38`, Hard returns 18, and Easy
returns `round(15 × 2.5 × 1.3) = 49`. -/
theorem sm2_established_intervals :
    (calculateSM2 3 2.5 15 2).intervalDays = 38 ∧
    (calculateSM2 2 2.5 15 2).intervalDays = 18 ∧
    (calculateSM2 4 2.5 15 2).intervalDays = 49 := by
  norm_num [calculateSM2, jsRound]

/-- C4: for every input state with ease factor ≥ 1.3 and every rating 1–4,
the ease factor returned by the scheduler is ≥ 1.3 (Again and Hard clamp to
the 1.3 floor, Good keeps it, Easy adds 0.15; there is no ceiling). -/
theorem sm2_ease_floor (rating : ℕ) (e i : ℚ) (r : ℤ)
    (hrating : rating = 1 ∨ rating = 2 ∨ rating = 3 ∨ rating = 4)
    (he : 1.3 ≤ e) : 1.3 ≤ (calculateSM2 rating e i r).easeFactor := by
  rcases hrating with h | h | h | h <;> subst h
  · rw [sm2_one_ease]
    exact le_max_left _ _
  · rw [sm2_two_ease]
    exact le_max_left _ _
  · rw [sm2_three_ease]
    exact he
  · rw [sm2_four_ease]
    linarith

/-- Closed witness for `sm2_ease_floor` at rating Easy, ease exactly 1.3. -/
theorem sm2_ease_floor_witness :
    (1.3 : ℚ) ≤ (calculateSM2 4 1.3 0 0).easeFactor :=
  sm2_ease_floor 4 1.3 0 0 (Or.inr (Or.inr (Or.inr rfl))) le_rfl

/-- C10: for every input state with nonnegative ease, interval and
repetitions and every rating 1–4, the returned interval is an integer number
of days ≥ 0 (the scheduler only produces the anchors 0, 1, 4, 6, 10 or
`Math.max`/`Math.round` of products), and the returned repetitions count is
≥ 0. -/
theorem sm2_interval_integer_nonneg (rating : ℕ) (e i : ℚ) (r : ℤ)
    (hrating : rating = 1 ∨ rating = 2 ∨ rating = 3 ∨ rating = 4)
    (he : 0 ≤ e) (hi : 0 ≤ i) (hr : 0 ≤ r) :
    (∃ n : ℤ, (calculateSM2 rating e i r).intervalDays = (n : ℚ) ∧ 0 ≤ n) ∧
    0 ≤ (calculateSM2 rating e i r).repetitions := by
  rcases hrating with h | h | h | h <;> subst h
  · rw [sm2_one_interval, sm2_one_reps]
    exact ⟨⟨0, by norm_num⟩, le_rfl⟩
  · rw [sm2_two_interval, sm2_two_reps]
    refine ⟨⟨max 1 (jsRound (i * 1.2)), ?_, ?_⟩, by omega⟩
    · push_cast [Int.cast_max]
      rfl
    · exact le_max_of_le_left zero_le_one
  · rw [sm2_three_interval, sm2_three_reps]
    refine ⟨?_, by omega⟩
    split_ifs with h1 h2
    · exact ⟨1, by norm_num⟩
    · exact ⟨6, by norm_num⟩
    · exact ⟨jsRound (i * e), rfl,
        Int.floor_nonneg.mpr (by positivity)⟩
  · rw [sm2_four_interval, sm2_four_reps]
    refine ⟨?_, by omega⟩
    split_ifs with h1 h2
    · exact ⟨4, by norm_num⟩
    · exact ⟨10, by norm_num⟩
    · exact ⟨jsRound (i * e * 1.3), rfl,
        Int.floor_nonneg.mpr (by positivity)⟩

/-- Closed witness for `sm2_interval_integer_nonneg` at rating Good with a
fractional stored interval. -/
theorem sm2_interval_integer_nonneg_witness :
    (∃ n : ℤ, (calculateSM2 3 2.5 1.5 5).intervalDays = (n : ℚ) ∧ 0 ≤ n) ∧
    0 ≤ (calculateSM2 3 2.5 1.5 5).repetitions :=
  sm2_interval_integer_nonneg 3 2.5 1.5 5 (Or.inr (Or.inr (Or.inl rfl)))
    (by norm_num) (by norm_num) (by norm_num)

/-! ## Usefulness scorer (`src/lib/usefulness/score.ts`) -/

/-- `CardInput` from `src/lib/usefulness/score.ts`; optional TS fields become
`Option`. -/
structure CardInput where
  korean : String
  english : String
  tags : List String
  isPattern : Option Bool := none
  manualScore : Option ℚ := none
  frequencyRank : Option ℚ := none

/-- `ScoringConfig`; the TS `Record<string, number>` tag-weight table is a
partial map from tag to weight. -/
structure ScoringConfig where
  tagWeights : String → Option ℚ
  patternBonus : ℚ
  frequencyWeight : ℚ
  userLevel : Option String

/-- `Partial<ScoringConfig>`: every field optional. -/
structure PartialScoringConfig where
  tagWeights : Option (String → Option ℚ) := none
  patternBonus : Option ℚ := none
  frequencyWeight : Option ℚ := none
  userLevel : Option (Option String) := none

/-- `ScoreResult`; `score` is an integer because the source rounds and clamps
it with `Math.round`/`Math.min`/`Math.max`. -/
structure ScoreResult where
  score : ℤ
  reasons : List String
deriving DecidableEq

/-- The `DEFAULT_CONFIG.tagWeights` record literal. -/
def defaultTagWeights : String → Option ℚ := fun tag =>
  if tag = "beginner" then some 10
  else if tag = "essential" then some 10
  else if tag = "travel" then some 8
  else if tag = "food" then some 7
  else if tag = "greeting" then some 9
  else if tag = "pattern" then some 8
  else if tag = "business" then some 6
  else if tag = "formal" then some 5
  else if tag = "slang" then some 3
  else if tag = "rare" then some (-5)
  else none

/-- `DEFAULT_CONFIG` from `src/lib/usefulness/score.ts`. -/
def DEFAULT_CONFIG : ScoringConfig :=
  { tagWeights := defaultTagWeights
    patternBonus := 15
    frequencyWeight := 0.25
    userLevel := none }

def BASE_SCORE : ℚ := 50

def MAX_TAG_IMPACT : ℚ := 30

/-- `getTagScore`: sum the configured weights of the card's tags, record one
reason per nonzero-weight tag, clamp the sum to `[-30, 30]` and note when
clamping changed it. -/
def getTagScore (tags : List String) (weights : String → Option ℚ) :
    ℚ × List String :=
  let folded := tags.foldl (fun acc tag =>
    match weights tag with
    | none => acc
    | some weight =>
        if weight > 0 then
          (acc.1 + weight,
           acc.2 ++ ["+" ++ toString weight ++ " for \x27" ++ tag ++ "\x27 tag"])
        else if weight < 0 then
          (acc.1 + weight,
           acc.2 ++ [toString weight ++ " for \x27" ++ tag ++ "\x27 tag"])
        else (acc.1 + weight, acc.2)) (0, [])
  let clampedScore := max (-MAX_TAG_IMPACT) (min MAX_TAG_IMPACT folded.1)
  if folded.1 ≠ clampedScore then
    (clampedScore, folded.2 ++ ["tag score capped at ±" ++ toString MAX_TAG_IMPACT])
  else
    (clampedScore, folded.2)

/-- `getFrequencyScore`. -/
def getFrequencyScore (rank : Option ℚ) : ℚ × Option String :=
  match rank with
  | none => (0, none)
  | some r =>
      if r ≤ 1000 then (20, some "high-frequency word (rank 1-1000)")
      else if r ≤ 5000 then (10, some "medium-frequency word (rank 1000-5000)")
      else (0, some "low-frequency word (rank 5000+)")

/-- `getPatternScore`. -/
def getPatternScore (isP : Bool) (bonus : ℚ) : ℚ × Option String :=
  if isP then (bonus, some ("+" ++ toString bonus ++ " grammar pattern bonus"))
  else (0, none)

/-- `normalizeScore`: `Math.max(0, Math.min(100, Math.round(raw)))`. -/
def normalizeScore (raw : ℚ) : ℤ :=
  max 0 (min 100 (jsRound raw))

/-- The config merge of `calculateUsefulness`: a partial override replaces
the scalar fields and spread-merges (override wins per key) into the default
tag-weight table. -/
def mergeConfig : Option PartialScoringConfig → ScoringConfig
  | none => DEFAULT_CONFIG
  | some c =>
      { tagWeights := fun tag =>
          match c.tagWeights with
          | none => DEFAULT_CONFIG.tagWeights tag
          | some ov =>
              match ov tag with
              | some w => some w
              | none => DEFAULT_CONFIG.tagWeights tag
        patternBonus := c.patternBonus.getD DEFAULT_CONFIG.patternBonus
        frequencyWeight := c.frequencyWeight.getD DEFAULT_CONFIG.frequencyWeight
        userLevel := c.userLevel.getD DEFAULT_CONFIG.userLevel }

/-- `calculateUsefulness` from `src/lib/usefulness/score.ts` (lines
116–165). -/
def calculateUsefulness (card : CardInput)
    (config : Option PartialScoringConfig) : ScoreResult :=
  match card.manualScore with
  | some m => { score := normalizeScore m, reasons := ["manual score override"] }
  | none =>
      let finalConfig := mergeConfig config
      let tagResult := getTagScore card.tags finalConfig.tagWeights
      let patternResult :=
        getPatternScore (card.isPattern.getD false) finalConfig.patternBonus
      let frequencyResult := getFrequencyScore card.frequencyRank
      let totalScore := BASE_SCORE + tagResult.1 + patternResult.1 + frequencyResult.1
      { score := normalizeScore totalScore
        reasons := ["base score: 50"] ++ tagResult.2 ++ patternResult.2.toList ++
          frequencyResult.2.toList }

/-- The clamp in `normalizeScore` keeps every score in `[0, 100]`. -/
lemma normalizeScore_range (q : ℚ) :
    0 ≤ normalizeScore q ∧ normalizeScore q ≤ 100 :=
  ⟨le_max_left 0 _, max_le (by norm_num) (min_le_left 100 _)⟩

/-- Every score produced by `calculateUsefulness` is a `normalizeScore` of
some raw value (either the manual override or the accumulated total). -/
lemma calculateUsefulness_score_eq (card : CardInput)
    (config : Option PartialScoringConfig) :
    ∃ q : ℚ, (calculateUsefulness card config).score = normalizeScore q := by
  unfold calculateUsefulness
  rcases h : card.manualScore with _ | m
  · exact ⟨_, rfl⟩
  · exact ⟨m, rfl⟩

/- Concrete lookups in the default tag-weight table, by reduction. -/

lemma dtw_rare : defaultTagWeights "rare" = some (-5) := rfl

lemma dtw_beginner : defaultTagWeights "beginner" = some 10 := rfl

lemma dtw_essential : defaultTagWeights "essential" = some 10 := rfl

lemma dtw_greeting : defaultTagWeights "greeting" = some 9 := rfl

lemma dtw_travel : defaultTagWeights "travel" = some 8 := rfl

lemma dtw_food : defaultTagWeights "food" = some 7 := rfl

lemma dtw_pattern : defaultTagWeights "pattern" = some 8 := rfl

lemma dtw_business : defaultTagWeights "business" = some 6 := rfl

/-- A card whose seven copies of the negative-weight tag `rare` sum to −35,
past the −30 clamp. -/
def sevenRareCard : CardInput :=
  { korean := "", english := "",
    tags := ["rare", "rare", "rare", "rare", "rare", "rare", "rare"] }

/-- A card with seven positive-weight tags (weights summing to 58), the
pattern flag and a high-frequency rank. -/
def stackedCard : CardInput :=
  { korean := "", english := "",
    tags := ["beginner", "essential", "greeting", "travel", "food", "pattern",
             "business"]
    isPattern := some true
    frequencyRank := some 100 }

set_option maxHeartbeats 1000000 in
/-- C5: for every card and every (possibly partial) scoring config the score
is in `[0, 100]`; with the default config, seven repeated `rare` tags and no
pattern/rank give exactly `50 − 30 = 20` (tag sum clamped at −30), and seven
positive tags plus pattern plus high frequency clamp at 100. -/
theorem usefulness_score_in_range :
    (∀ (card : CardInput) (config : Option PartialScoringConfig),
        0 ≤ (calculateUsefulness card config).score ∧
        (calculateUsefulness card config).score ≤ 100) ∧
    (calculateUsefulness sevenRareCard none).score = 20 ∧
    (calculateUsefulness stackedCard none).score = 100 := by
  refine ⟨fun card config => ?_, ?_, ?_⟩
  · obtain ⟨q, hq⟩ := calculateUsefulness_score_eq card config
    rw [hq]
    exact normalizeScore_range q
  · norm_num [calculateUsefulness, sevenRareCard, mergeConfig, DEFAULT_CONFIG,
      getTagScore, getPatternScore, getFrequencyScore, normalizeScore,
      BASE_SCORE, MAX_TAG_IMPACT, jsRound, List.foldl, dtw_rare, max_def,
      min_def]
  · norm_num [calculateUsefulness, stackedCard, mergeConfig, DEFAULT_CONFIG,
      getTagScore, getPatternScore, getFrequencyScore, normalizeScore,
      BASE_SCORE, MAX_TAG_IMPACT, jsRound, List.foldl, dtw_beginner,
      dtw_essential, dtw_greeting, dtw_travel, dtw_food, dtw_pattern,
      dtw_business, max_def, min_def]

/-- The card of the C6 scenario: manual override 150. -/
def manualCard : CardInput :=
  { korean := "", english := "", tags := ["beginner"], manualScore := some 150 }

/-- C6 counterexample: the single reason attached to a manual override is the
string "manual score override", not "manual override". -/
theorem manual_override_reason_counterexample :
    (calculateUsefulness manualCard none).reasons ≠ ["manual override"] := by
  simp [calculateUsefulness, manualCard]

/-- C6 (amended): whenever `manualScore` is present the scorer returns it
rounded and clamped to `[0, 100]` together with exactly one reason, the
single reason "manual score override", skipping base, tags, pattern and
frequency. -/
theorem manual_override_behavior (card : CardInput)
    (config : Option PartialScoringConfig) (m : ℚ)
    (h : card.manualScore = some m) :
    (calculateUsefulness card config).score = normalizeScore m ∧
    (calculateUsefulness card config).reasons = ["manual score override"] := by
  unfold calculateUsefulness
  rw [h]
  exact ⟨rfl, rfl⟩

/-- Closed witness for `manual_override_behavior`: manual score 150 clamps to
100 with the single override reason. -/
theorem manual_override_behavior_witness :
    (calculateUsefulness manualCard none).score = 100 ∧
    (calculateUsefulness manualCard none).reasons = ["manual score override"] := by
  have h := manual_override_behavior manualCard none 150 rfl
  exact ⟨h.1.trans (by norm_num [normalizeScore, jsRound]), h.2⟩

/-! ## Fuzzy matcher (`src/lib/fuzzy/match.ts`)

Strings are modelled as `List Char`. -/

/-- JS regex `\s` character class (the whitespace set removed by
`normalizeKorean` and by `String.prototype.trim`). -/
def isJsWhitespace (c : Char) : Bool :=
  c == ' ' || c == '\t' || c == '\n' || c == '\x0b' || c == '\x0c' ||
  c == '\r' || c == '\u00a0' || c == '\u1680' ||
  (decide ('\u2000' ≤ c) && decide (c ≤ '\u200a')) || c == '\u2028' ||
  c == '\u2029' || c == '\u202f' || c == '\u205f' || c == '\u3000' ||
  c == '\ufeff'

/-- The CJK punctuation/quote class `[.,!?~…""''「」『』]` of the first
punctuation `replace` in `normalizeKorean`. -/
def punctuationCjk : List Char :=
  ['.', ',', '!', '?', '~', '…', '\u201c', '\u201d', '\u2018', '\u2019',
   '「', '」', '『', '』']

/-- The ASCII punctuation class of the second punctuation `replace` in
`normalizeKorean`. -/
def punctuationAscii : List Char :=
  ['.', ',', ':', ';', '!', '?', '\x27', '\x22', '(', ')', '[', ']',
   '\x7b', '\x7d']

/-- The ASCII fragment of `String.prototype.toLowerCase` (the Korean
characters the matcher targets are caseless). -/
def toLowerChar (c : Char) : Char :=
  if c = 'A' then 'a' else if c = 'B' then 'b' else if c = 'C' then 'c'
  else if c = 'D' then 'd' else if c = 'E' then 'e' else if c = 'F' then 'f'
  else if c = 'G' then 'g' else if c = 'H' then 'h' else if c = 'I' then 'i'
  else if c = 'J' then 'j' else if c = 'K' then 'k' else if c = 'L' then 'l'
  else if c = 'M' then 'm' else if c = 'N' then 'n' else if c = 'O' then 'o'
  else if c = 'P' then 'p' else if c = 'Q' then 'q' else if c = 'R' then 'r'
  else if c = 'S' then 's' else if c = 'T' then 't' else if c = 'U' then 'u'
  else if c = 'V' then 'v' else if c = 'W' then 'w' else if c = 'X' then 'x'
  else if c = 'Y' then 'y' else if c = 'Z' then 'z' else c

/-- Left half of `String.prototype.trim`. -/
def trimLeftWs : List Char → List Char
  | [] => []
  | c :: cs => if isJsWhitespace c then trimLeftWs cs else c :: cs

/-- `String.prototype.trim`: drop leading and trailing whitespace. -/
def trimWs (l : List Char) : List Char :=
  (trimLeftWs ((trimLeftWs l).reverse)).reverse

/-- `normalizeKorean` from `src/lib/fuzzy/match.ts` (lines 27–34): remove all
whitespace, remove the CJK and ASCII punctuation classes, lower-case, and
trim. -/
def normalizeKorean (text : List Char) : List Char :=
  trimWs ((((text.filter (fun c => !isJsWhitespace c)).filter
      (fun c => !punctuationCjk.contains c)).filter
      (fun c => !punctuationAscii.contains c)).map toLowerChar)

/-- Cell `matrix[i][j]` of the Levenshtein dynamic-programming table of
`levenshteinDistance` (`src/lib/fuzzy/match.ts`, lines 73–99): row index `i`
ranges over prefixes of `b`, column index `j` over prefixes of `a`.  The
extra fuel argument only forces termination; any fuel above `i + j` computes
the table cell. -/
def levCellF (a b : List Char) : ℕ → ℕ → ℕ → ℕ
  | 0, _, _ => 0
  | _ + 1, 0, j => j
  | _ + 1, i + 1, 0 => i + 1
  | fuel + 1, i + 1, j + 1 =>
      if b.get? i = a.get? j then levCellF a b fuel i j
      else
        min (levCellF a b fuel i j + 1)
          (min (levCellF a b fuel (i + 1) j + 1)
            (levCellF a b fuel i (j + 1) + 1))

/-- `levenshteinDistance`: the bottom-right cell `matrix[b.length][a.length]`
of the table. -/
def levenshteinDistance (a b : List Char) : ℕ :=
  levCellF a b (b.length + a.length + 1) b.length a.length

/-- `calculateSimilarity` from `src/lib/fuzzy/match.ts` (lines 104–112). -/
def calculateSimilarity (a b : List Char) : ℚ :=
  if a = b then 1
  else if a.length = 0 ∨ b.length = 0 then 0
  else 1 - (levenshteinDistance a b : ℚ) / (max a.length b.length : ℚ)

/-- The `type` discriminant of a `Difference`. -/
inductive DiffType where
  | insert
  | delete
  | replace
deriving DecidableEq

/-- `Difference` from `src/lib/fuzzy/match.ts`; the optional TS fields become
`Option`. -/
structure Difference where
  type : DiffType
  position : ℕ
  expected : Option Char := none
  actual : Option Char := none
deriving DecidableEq

/-- JS `String.prototype.indexOf(c, start)`: first index ≥ `start` holding
`c`, or −1. -/
def jsIndexOf (l : List Char) (c : Char) (start : ℕ) : ℤ :=
  match (l.drop start).findIdx? (fun x => x == c) with
  | some k => ((start + k : ℕ) : ℤ)
  | none => -1

/-- One-iteration body plus loop of `findDifferences`
(`src/lib/fuzzy/match.ts`, lines 117–183): two cursors `i` (over `expected`)
and `j` (over `actual`), a one-character look-ahead to classify divergences,
and the safety valve that stops once the difference list exceeds twice the
longer length.  Each iteration advances `i + j`, so fuel
`expected.length + actual.length + 1` never runs out. -/
def findDifferencesAux (expected actual : List Char) (maxLen : ℕ) :
    ℕ → ℕ → ℕ → List Difference → List Difference
  | 0, _, _, acc => acc
  | fuel + 1, i, j, acc =>
      if i < expected.length ∨ j < actual.length then
        let next : ℕ × ℕ × List Difference :=
          if expected.length ≤ i then
            (i, j + 1, acc ++
              [{ type := .insert, position := j, actual := actual.get? j }])
          else if actual.length ≤ j then
            (i + 1, j, acc ++
              [{ type := .delete, position := i, expected := expected.get? i }])
          else if expected.get? i ≠ actual.get? j then
            let lookAheadExpected := jsIndexOf expected (actual.getD j default) i
            let lookAheadActual := jsIndexOf actual (expected.getD i default) j
            if lookAheadActual = (j : ℤ) + 1 then
              (i, j + 1, acc ++
                [{ type := .insert, position := j, actual := actual.get? j }])
            else if lookAheadExpected = (i : ℤ) + 1 then
              (i + 1, j, acc ++
                [{ type := .delete, position := i, expected := expected.get? i }])
            else
              (i + 1, j + 1, acc ++
                [{ type := .replace, position := i,
                   expected := expected.get? i, actual := actual.get? j }])
          else (i + 1, j + 1, acc)
        if maxLen * 2 < next.2.2.length then next.2.2
        else findDifferencesAux expected actual maxLen fuel next.1 next.2.1 next.2.2
      else acc

/-- `findDifferences` from `src/lib/fuzzy/match.ts`. -/
def findDifferences (expected actual : List Char) : List Difference :=
  findDifferencesAux expected actual (max expected.length actual.length)
    (expected.length + actual.length + 1) 0 0 []

/-- `MatchResult` from `src/lib/fuzzy/match.ts`. -/
structure MatchResult where
  isMatch : Bool
  similarity : ℚ
  normalizedExpected : List Char
  normalizedActual : List Char
  differences : List Difference
deriving DecidableEq

/-- `fuzzyMatch` from `src/lib/fuzzy/match.ts` (lines 39–68). -/
def fuzzyMatch (expected actual : List Char) : MatchResult :=
  let normalizedExpected := normalizeKorean expected
  let normalizedActual := normalizeKorean actual
  if normalizedExpected = normalizedActual then
    { isMatch := true, similarity := 1
      normalizedExpected := normalizedExpected
      normalizedActual := normalizedActual
      differences := [] }
  else
    let differences := findDifferences normalizedExpected normalizedActual
    let similarity := calculateSimilarity normalizedExpected normalizedActual
    { isMatch := decide (similarity ≥ 0.95), similarity := similarity
      normalizedExpected := normalizedExpected
      normalizedActual := normalizedActual
      differences := differences }

/-- C7: comparing any string with itself (the empty string included) yields
similarity 1, a match, and an empty difference list. -/
theorem fuzzyMatch_self (s : List Char) :
    fuzzyMatch s s =
      { isMatch := true, similarity := 1
        normalizedExpected := normalizeKorean s
        normalizedActual := normalizeKorean s
        differences := [] } := by
  unfold fuzzyMatch
  rw [if_pos rfl]

/-! ### Idempotence of `normalizeKorean` (C9) -/

def upperAscii : List Char :=
  ['A', 'B', 'C', 'D', 'E', 'F', 'G', 'H', 'I', 'J', 'K', 'L', 'M',
   'N', 'O', 'P', 'Q', 'R', 'S', 'T', 'U', 'V', 'W', 'X', 'Y', 'Z']

def lowerAscii : List Char :=
  ['a', 'b', 'c', 'd', 'e', 'f', 'g', 'h', 'i', 'j', 'k', 'l', 'm',
   'n', 'o', 'p', 'q', 'r', 's', 't', 'u', 'v', 'w', 'x', 'y', 'z']

set_option maxHeartbeats 800000 in
/-- `toLowerChar` either fixes its argument or maps an upper-case ASCII
letter to a lower-case one. -/
lemma toLowerChar_spec (c : Char) :
    toLowerChar c = c ∨ (c ∈ upperAscii ∧ toLowerChar c ∈ lowerAscii) := by
  by_cases hc : c ∈ upperAscii
  · refine Or.inr ⟨hc, ?_⟩
    fin_cases hc <;> decide
  · refine Or.inl ?_
    have hne : ∀ x ∈ upperAscii, ¬(c = x) := fun x hx h => hc (h ▸ hx)
    unfold toLowerChar
    rw [if_neg (hne 'A' (by decide)), if_neg (hne 'B' (by decide)),
      if_neg (hne 'C' (by decide)), if_neg (hne 'D' (by decide)),
      if_neg (hne 'E' (by decide)), if_neg (hne 'F' (by decide)),
      if_neg (hne 'G' (by decide)), if_neg (hne 'H' (by decide)),
      if_neg (hne 'I' (by decide)), if_neg (hne 'J' (by decide)),
      if_neg (hne 'K' (by decide)), if_neg (hne 'L' (by decide)),
      if_neg (hne 'M' (by decide)), if_neg (hne 'N' (by decide)),
      if_neg (hne 'O' (by decide)), if_neg (hne 'P' (by decide)),
      if_neg (hne 'Q' (by decide)), if_neg (hne 'R' (by decide)),
      if_neg (hne 'S' (by decide)), if_neg (hne 'T' (by decide)),
      if_neg (hne 'U' (by decide)), if_neg (hne 'V' (by decide)),
      if_neg (hne 'W' (by decide)), if_neg (hne 'X' (by decide)),
      if_neg (hne 'Y' (by decide)), if_neg (hne 'Z' (by decide))]

lemma upper_not_ws : ∀ c ∈ upperAscii, isJsWhitespace c = false := by decide

lemma lower_not_ws : ∀ c ∈ lowerAscii, isJsWhitespace c = false := by decide

lemma upper_not_cjk : ∀ c ∈ upperAscii, punctuationCjk.contains c = false := by
  decide

lemma lower_not_cjk : ∀ c ∈ lowerAscii, punctuationCjk.contains c = false := by
  decide

lemma upper_not_ascii : ∀ c ∈ upperAscii, punctuationAscii.contains c = false := by
  decide

lemma lower_not_ascii : ∀ c ∈ lowerAscii, punctuationAscii.contains c = false := by
  decide

lemma lower_fixed : ∀ c ∈ lowerAscii, toLowerChar c = c := by decide

lemma ws_toLowerChar (c : Char) :
    isJsWhitespace (toLowerChar c) = isJsWhitespace c := by
  rcases toLowerChar_spec c with h | ⟨hc, hl⟩
  · rw [h]
  · rw [upper_not_ws c hc, lower_not_ws _ hl]

lemma cjk_toLowerChar (c : Char) :
    punctuationCjk.contains (toLowerChar c) = punctuationCjk.contains c := by
  rcases toLowerChar_spec c with h | ⟨hc, hl⟩
  · rw [h]
  · rw [upper_not_cjk c hc, lower_not_cjk _ hl]

lemma ascii_toLowerChar (c : Char) :
    punctuationAscii.contains (toLowerChar c) = punctuationAscii.contains c := by
  rcases toLowerChar_spec c with h | ⟨hc, hl⟩
  · rw [h]
  · rw [upper_not_ascii c hc, lower_not_ascii _ hl]

lemma toLowerChar_idem (c : Char) :
    toLowerChar (toLowerChar c) = toLowerChar c := by
  rcases toLowerChar_spec c with h | ⟨hc, hl⟩
  · rw [h]
    exact h
  · exact lower_fixed _ hl

lemma mem_of_trimLeftWs {x : Char} : ∀ {l : List Char}, x ∈ trimLeftWs l → x ∈ l
  | [], h => h
  | c :: cs, h => by
      rw [trimLeftWs] at h
      split at h
      · exact List.mem_cons_of_mem c (mem_of_trimLeftWs h)
      · exact h

lemma mem_of_trimWs {x : Char} {l : List Char} (h : x ∈ trimWs l) : x ∈ l := by
  unfold trimWs at h
  rw [List.mem_reverse] at h
  have h2 := mem_of_trimLeftWs h
  rw [List.mem_reverse] at h2
  exact mem_of_trimLeftWs h2

lemma trimLeftWs_eq_self {l : List Char}
    (h : ∀ x ∈ l, isJsWhitespace x = false) : trimLeftWs l = l := by
  cases l with
  | nil => rfl
  | cons c cs =>
      rw [trimLeftWs, h c (List.mem_cons_self c cs)]
      simp

lemma trimWs_eq_self {l : List Char}
    (h : ∀ x ∈ l, isJsWhitespace x = false) : trimWs l = l := by
  unfold trimWs
  rw [trimLeftWs_eq_self h,
    trimLeftWs_eq_self (fun x hx => h x (List.mem_reverse.mp hx)),
    List.reverse_reverse]

lemma map_eq_self_of_fixed {f : Char → Char} :
    ∀ {l : List Char}, (∀ x ∈ l, f x = x) → l.map f = l
  | [], _ => rfl
  | c :: cs, h => by
      rw [List.map_cons, h c (List.mem_cons_self c cs),
        map_eq_self_of_fixed (fun x hx => h x (List.mem_cons_of_mem c hx))]

/-- Every character surviving `normalizeKorean` is non-whitespace,
non-punctuation and already lower-case. -/
lemma mem_normalizeKorean (x : Char) (s : List Char)
    (hx : x ∈ normalizeKorean s) :
    isJsWhitespace x = false ∧ punctuationCjk.contains x = false ∧
    punctuationAscii.contains x = false ∧ toLowerChar x = x := by
  unfold normalizeKorean at hx
  have hx2 := mem_of_trimWs hx
  obtain ⟨c, hcmem, hcx⟩ := List.mem_map.mp hx2
  obtain ⟨hcmem2, hp2⟩ := List.mem_filter.mp hcmem
  obtain ⟨hcmem3, hp1⟩ := List.mem_filter.mp hcmem2
  obtain ⟨_, hws⟩ := List.mem_filter.mp hcmem3
  rw [Bool.not_eq_eq_eq_not, Bool.not_true] at hws hp1 hp2
  subst hcx
  exact ⟨(ws_toLowerChar c).trans hws, (cjk_toLowerChar c).trans hp1,
    (ascii_toLowerChar c).trans hp2, toLowerChar_idem c⟩

/-- C9: `normalizeKorean` is idempotent: normalizing an already normalized
string (whitespace stripped, punctuation classes stripped, lower-cased,
trimmed) changes nothing. -/
theorem normalizeKorean_idempotent (s : List Char) :
    normalizeKorean (normalizeKorean s) = normalizeKorean s := by
  have hprops := fun x hx => mem_normalizeKorean x s hx
  set t := normalizeKorean s with ht
  have h1 : t.filter (fun c => !isJsWhitespace c) = t :=
    List.filter_eq_self.mpr (fun a ha => by rw [(hprops a ha).1]; rfl)
  have h2 : t.filter (fun c => !punctuationCjk.contains c) = t :=
    List.filter_eq_self.mpr (fun a ha => by rw [(hprops a ha).2.1]; rfl)
  have h3 : t.filter (fun c => !punctuationAscii.contains c) = t :=
    List.filter_eq_self.mpr (fun a ha => by rw [(hprops a ha).2.2.1]; rfl)
  have h4 : t.map toLowerChar = t :=
    map_eq_self_of_fixed (fun x hx => (hprops x hx).2.2.2)
  have h5 : trimWs t = t := trimWs_eq_self (fun x hx => (hprops x hx).1)
  conv_lhs => rw [normalizeKorean, h1, h2, h3, h4, h5]

/-! ### Similarity bounds (C8) -/

/-- Every cell of the Levenshtein table is at most the larger of its two
indices (enough fuel given). -/
lemma levCellF_le_max (a b : List Char) : ∀ (fuel i j : ℕ), i + j < fuel →
    i ≤ b.length → j ≤ a.length → levCellF a b fuel i j ≤ max i j := by
  intro fuel
  induction fuel with
  | zero => intro i j h _ _; exact absurd h (Nat.not_lt_zero _)
  | succ fuel ih =>
      intro i j hf hi hj
      rcases i with _ | i
      · rcases j with _ | j <;> simp [levCellF]
      · rcases j with _ | j
        · simp [levCellF]
        · simp only [levCellF]
          split
          · have hd := ih i j (by omega) (by omega) (by omega)
            exact le_trans hd (max_le_max (Nat.le_succ i) (Nat.le_succ j))
          · have hd := ih i j (by omega) (by omega) (by omega)
            have hmin := min_le_left (levCellF a b fuel i j + 1)
              (min (levCellF a b fuel (i + 1) j + 1)
                (levCellF a b fuel i (j + 1) + 1))
            have hmax : max i j + 1 = max (i + 1) (j + 1) := by omega
            omega

/-- A zero cell forces the corresponding prefixes to be equal. -/
lemma levCellF_eq_zero (a b : List Char) : ∀ (fuel i j : ℕ), i + j < fuel →
    i ≤ b.length → j ≤ a.length → levCellF a b fuel i j = 0 →
    b.take i = a.take j := by
  intro fuel
  induction fuel with
  | zero => intro i j h _ _ _; exact absurd h (Nat.not_lt_zero _)
  | succ fuel ih =>
      intro i j hf hi hj hzero
      rcases i with _ | i
      · rcases j with _ | j
        · rfl
        · simp only [levCellF] at hzero
          omega
      · rcases j with _ | j
        · simp only [levCellF] at hzero
          omega
        · simp only [levCellF] at hzero
          split at hzero
          · rename_i hchars
            have hIH := ih i j (by omega) (by omega) (by omega) hzero
            rw [List.take_succ, List.take_succ, hIH]
            rw [← List.get?_eq_getElem?, ← List.get?_eq_getElem?, hchars]
          · have h1 := min_le_left (levCellF a b fuel i j + 1)
              (min (levCellF a b fuel (i + 1) j + 1)
                (levCellF a b fuel i (j + 1) + 1))
            omega

/-- The Levenshtein distance never exceeds the longer length. -/
lemma levenshteinDistance_le (a b : List Char) :
    levenshteinDistance a b ≤ max a.length b.length := by
  have h := levCellF_le_max a b (b.length + a.length + 1) b.length a.length
    (by omega) le_rfl le_rfl
  rw [levenshteinDistance]
  omega

/-- Distance zero forces equality of the strings. -/
lemma levenshteinDistance_eq_zero {a b : List Char}
    (h : levenshteinDistance a b = 0) : a = b := by
  have h2 := levCellF_eq_zero a b (b.length + a.length + 1) b.length a.length
    (by omega) le_rfl le_rfl h
  rw [List.take_length, List.take_length] at h2
  exact h2.symm

/-- C8: for every pair of (normalized) strings, the similarity is 0 when
exactly one of them is empty, equals 1 only when the strings are equal, and
always lies in `[0, 1]`. -/
theorem similarity_bounds (a b : List Char) :
    (((a = [] ∧ b ≠ []) ∨ (a ≠ [] ∧ b = [])) → calculateSimilarity a b = 0) ∧
    (calculateSimilarity a b = 1 → a = b) ∧
    0 ≤ calculateSimilarity a b ∧ calculateSimilarity a b ≤ 1 := by
  unfold calculateSimilarity
  by_cases hab : a = b
  · rw [if_pos hab]
    refine ⟨fun hor => ?_, fun _ => hab, by norm_num, le_refl 1⟩
    subst hab
    rcases hor with ⟨h1, h2⟩ | ⟨h1, h2⟩
    · exact absurd h1 h2
    · exact absurd h2 h1
  · rw [if_neg hab]
    by_cases hlen : a.length = 0 ∨ b.length = 0
    · rw [if_pos hlen]
      exact ⟨fun _ => rfl, fun h01 => absurd h01 (by norm_num), le_refl 0,
        by norm_num⟩
    · rw [if_neg hlen]
      push_neg at hlen
      have hmaxnat : 0 < max a.length b.length := by omega
      have hmax : (0 : ℚ) < (max a.length b.length : ℚ) := by
        exact_mod_cast hmaxnat
      have hdle : (levenshteinDistance a b : ℚ) ≤ (max a.length b.length : ℚ) := by
        exact_mod_cast levenshteinDistance_le a b
      have hdpos : 1 ≤ levenshteinDistance a b := by
        rcases Nat.eq_zero_or_pos (levenshteinDistance a b) with h0 | h1
        · exact absurd (levenshteinDistance_eq_zero h0) hab
        · exact h1
      have hratio1 : (levenshteinDistance a b : ℚ) / (max a.length b.length : ℚ) ≤ 1 :=
        (div_le_one hmax).mpr hdle
      have hratio0 : 0 < (levenshteinDistance a b : ℚ) / (max a.length b.length : ℚ) := by
        apply div_pos _ hmax
        exact_mod_cast hdpos
      refine ⟨fun hor => ?_, fun h1 => ?_, by linarith, by linarith⟩
      · exfalso
        rcases hor with ⟨h1, _⟩ | ⟨_, h2⟩
        · exact hlen.1 (by rw [h1]; rfl)
        · exact hlen.2 (by rw [h2]; rfl)
      · exfalso
        have : (levenshteinDistance a b : ℚ) / (max a.length b.length : ℚ) = 0 := by
          linarith
        rw [this] at hratio0
        exact lt_irrefl 0 hratio0

/-- Closed witness for `similarity_bounds`: one-empty gives 0, and
similarity 1 at equal strings returns equality. -/
theorem similarity_bounds_witness :
    calculateSimilarity ['a'] [] = 0 ∧ (['a'] : List Char) = ['a'] :=
  ⟨(similarity_bounds ['a'] []).1 (Or.inr ⟨by decide, rfl⟩),
   (similarity_bounds ['a'] ['a']).2.1 rfl⟩

end KSRS
